import Mathlib

/-!
Shallow embedding of the book-lending core of the College-library-management
repository (Flask + SQLAlchemy / sqlite).  The embedded code lives in
`src/models/models.py`, `src/routes/books.py`, `src/routes/transactions.py`
and `src/simple_app.py`.  Timestamps are modelled as `Int` seconds
(`datetime` differences; Python's `timedelta.days` is whole-day floor
division by 86400 for the nonnegative differences that occur here), and
money as `Rat` (the Python floats involved are the exact values
`days_late * 1.0`, all integral, so `Rat` loses nothing).
-/

/-- Seconds in one day: Python's `timedelta.days` floor-divides by this. -/
def secondsPerDay : Int := 86400

/-- Transaction.status column: 'issued', 'overdue' or 'returned'
(models.py line 71). -/
inductive TxStatus where
  | issued
  | overdue
  | returned
deriving DecidableEq

/-- Fine.status column: 'unpaid', 'partially_paid' or 'paid'
(models.py line 105). -/
inductive FineStatus where
  | unpaid
  | partially_paid
  | paid
deriving DecidableEq

/-- Book model (models.py lines 33-59); only the columns the lending
lifecycle reads or writes. -/
structure Book where
  total_copies : Int
  available_copies : Int
  is_active : Bool
deriving DecidableEq

/-- Book.is_available (models.py lines 57-59):
`available_copies > 0 and is_active`. -/
def Book.is_available (b : Book) : Bool :=
  decide (0 < b.available_copies) && b.is_active

/-- Transaction model (models.py lines 61-92); only the columns the
lending lifecycle reads or writes. -/
structure Transaction where
  id : Nat
  user_id : Nat
  book_id : Nat
  issue_date : Int
  due_date : Int
  return_date : Option Int
  status : TxStatus
deriving DecidableEq

/-- Transaction.is_overdue (models.py lines 81-85): false once a
return_date is set, else `datetime.utcnow() > due_date`. -/
def Transaction.is_overdue (t : Transaction) (now : Int) : Bool :=
  match t.return_date with
  | some _ => false
  | none => decide (t.due_date < now)

/-- Transaction.days_overdue (models.py lines 87-92):
`(today - due_date).days` when overdue, else 0. -/
def Transaction.days_overdue (t : Transaction) (now : Int) : Nat :=
  if t.is_overdue now then (now - t.due_date).toNat / secondsPerDay.toNat else 0

/-- Fine model (models.py lines 94-107). -/
structure Fine where
  transaction_id : Nat
  amount : Rat
  per_day_rate : Rat
  days_late : Nat
  total_amount : Rat
  paid_amount : Rat
  status : FineStatus
  paid_date : Option Int
deriving DecidableEq

/-- Fine.remaining_amount (models.py lines 112-114). -/
def Fine.remaining_amount (f : Fine) : Rat := f.total_amount - f.paid_amount

/-- Fine.is_fully_paid (models.py lines 116-118): `paid_amount >= total_amount`. -/
def Fine.is_fully_paid (f : Fine) : Bool := decide (f.total_amount ≤ f.paid_amount)

/-- Error outcomes of the routes: each models one flash-and-redirect
rejection branch of the embedded handlers. -/
inductive LibError where
  | Unavailable
  | AlreadyIssued
  | NotFound
  | AlreadyReturned
  | Forbidden
  | InvalidDays
  | Conflict
  | AlreadyPaid
deriving DecidableEq

/-- Copy-count adjustment of edit_book (routes/books.py lines 148-168 and
simple_app.py lines 274-293): `book.total_copies = total_copies if
total_copies else 1`, then if the submitted count grew, grow
available_copies by the difference, and if it shrank, clamp
available_copies to `max(0, total_copies - issued_copies)` with
`issued_copies = old_total - available_copies`. -/
def edit_book_copies (b : Book) (total_copies : Int) : Book :=
  let b1 : Book := { b with total_copies := if total_copies ≠ 0 then total_copies else 1 }
  if b.total_copies < total_copies then
    { b1 with available_copies := b.available_copies + (total_copies - b.total_copies) }
  else if total_copies < b.total_copies then
    { b1 with available_copies := max 0 (total_copies - (b.total_copies - b.available_copies)) }
  else b1

/-- delete_book (routes/books.py lines 175-199, same check in simple_app.py
lines 300-327): count transactions of the book with status 'issued'; on any,
flash a conflict, else soft-delete by clearing is_active. -/
def delete_book (book_id : Nat) (b : Book) (txns : List Transaction) :
    Except LibError Book :=
  let active_transactions :=
    (txns.filter fun t => decide (t.book_id = book_id ∧ t.status = TxStatus.issued)).length
  if 0 < active_transactions then .error .Conflict
  else .ok { b with is_active := false }

/-- pay_fine (simple_app.py lines 744-774): reject a fine whose status is
already 'paid'; otherwise set status 'paid' and paid_date now.  The handler
reads no payment amount and leaves paid_amount untouched. -/
def pay_fine (f : Fine) (now : Int) : Except LibError Fine :=
  if f.status = FineStatus.paid then .error .AlreadyPaid
  else .ok { f with status := FineStatus.paid, paid_date := some now }

/-- overdue_books sweep (routes/transactions.py lines 208-225): every
transaction with status 'issued' and due_date before now has its status set
to 'overdue'; nothing else changes. -/
def sweepOverdue (txns : List Transaction) (now : Int) : List Transaction :=
  txns.map fun t =>
    if t.status = TxStatus.issued ∧ t.due_date < now then
      { t with status := TxStatus.overdue }
    else t

/-- Result of a return handler: the updated transaction row, the updated
book row, and the fine row inserted, if any. -/
structure ReturnResult where
  txn : Transaction
  book : Book
  fine : Option Fine
deriving DecidableEq

/-- return_book POST branch (routes/transactions.py lines 127-169).  The
handler runs with an ambient logged-in `current_user`, modelled by the two
leading arguments; its body never consults them.  Mirroring the source
order, `return_date` and `status` are assigned first, and the fine branch
then calls `is_overdue()`/`days_overdue()` on the already-updated row. -/
def return_book (acting_user_id : Nat) (acting_is_admin : Bool)
    (transaction : Transaction) (book : Book) (now : Int) :
    Except LibError ReturnResult :=
  if transaction.status = TxStatus.returned then .error .AlreadyReturned
  else
    let t1 : Transaction :=
      { transaction with return_date := some now, status := TxStatus.returned }
    let book1 : Book := { book with available_copies := book.available_copies + 1 }
    if t1.is_overdue now then
      let days_late := t1.days_overdue now
      let fine_rate : Rat := 1
      let total_fine : Rat := (days_late : Rat) * fine_rate
      let fineRow : Fine :=
        { transaction_id := transaction.id
          amount := fine_rate
          per_day_rate := fine_rate
          days_late := days_late
          total_amount := total_fine
          paid_amount := 0
          status := FineStatus.unpaid
          paid_date := none }
      .ok ⟨t1, book1, some fineRow⟩
    else .ok ⟨t1, book1, none⟩

/-- return_book (simple_app.py lines 395-443): reject a returned
transaction ('Invalid transaction'), reject a caller who is neither admin
nor the transaction's user ('Unauthorized'), then compare now against the
stored due_date before writing the return, inserting a fine with
`days_late = (return_date - due_date).days`, amount and per_day_rate 1.0,
total `days_late * 1.0`, status 'unpaid' when `return_date > due_date`. -/
def return_book_simple (session_user_id : Nat) (session_is_admin : Bool)
    (transaction : Transaction) (book : Book) (now : Int) :
    Except LibError ReturnResult :=
  if transaction.status = TxStatus.returned then .error .NotFound
  else if session_is_admin = false ∧ transaction.user_id ≠ session_user_id then
    .error .Forbidden
  else
    let fineRow : Option Fine :=
      if transaction.due_date < now then
        let days_late := (now - transaction.due_date).toNat / secondsPerDay.toNat
        some { transaction_id := transaction.id
               amount := 1
               per_day_rate := 1
               days_late := days_late
               total_amount := (days_late : Rat) * 1
               paid_amount := 0
               status := FineStatus.unpaid
               paid_date := none }
      else none
    .ok ⟨{ transaction with return_date := some now, status := TxStatus.returned },
      { book with available_copies := book.available_copies + 1 }, fineRow⟩

/-- renew_book POST branch (routes/transactions.py lines 173-206): reject a
returned transaction, reject a caller who is neither admin nor the owner,
reject a non-positive day count, else push due_date out by the given days. -/
def renew_book (current_user_id : Nat) (current_is_admin : Bool)
    (transaction : Transaction) (additional_days : Int) :
    Except LibError Transaction :=
  if transaction.status = TxStatus.returned then .error .AlreadyReturned
  else if current_is_admin = false ∧ transaction.user_id ≠ current_user_id then
    .error .Forbidden
  else if additional_days ≤ 0 then .error .InvalidDays
  else .ok { transaction with
    due_date := transaction.due_date + additional_days * secondsPerDay }

/-!
State machine over one catalog book: the operation sequences of the
invariant claims compose add_book (routes/books.py lines 80-95), the
edit_book copy adjustment, issue_book (routes/transactions.py lines 51-106),
return_book and the overdue sweep, all against the shared store.  Errors
flash and redirect without touching the store, so a failing operation leaves
the state unchanged.
-/

/-- Store state for one book: the book row, the transaction rows referencing
it, and the autoincrement counter of the transactions table. -/
structure LibState where
  book_id : Nat
  book : Book
  txns : List Transaction
  next_id : Nat
deriving DecidableEq

/-- add_book (routes/books.py lines 80-95): a fresh book gets
`total_copies = total_copies if total_copies else 1` and
`available_copies` equal to it; no transactions reference it yet. -/
def initState (book_id : Nat) (total_copies : Int) : LibState :=
  let tc := if total_copies ≠ 0 then total_copies else 1
  { book_id := book_id
    book := { total_copies := tc, available_copies := tc, is_active := true }
    txns := []
    next_id := 0 }

/-- Filter of the existing-loan check of issue_book
(routes/transactions.py lines 76-80): `filter_by(user_id=user_id,
book_id=book_id, status='issued')`. -/
def issuedFor (book_id user_id : Nat) (t : Transaction) : Bool :=
  decide (t.user_id = user_id ∧ t.book_id = book_id ∧ t.status = TxStatus.issued)

/-- The transaction row issue_book inserts (routes/transactions.py lines
86-97): status 'issued', due `due_days` days out, `due_days` defaulting to
14 when absent or non-positive. -/
def issuedTxn (user_id : Nat) (due_days now : Int) (s : LibState) : Transaction :=
  let dd := if due_days ≤ 0 then 14 else due_days
  { id := s.next_id
    user_id := user_id
    book_id := s.book_id
    issue_date := now
    due_date := now + dd * secondsPerDay
    return_date := none
    status := TxStatus.issued }

/-- issue_book POST branch (routes/transactions.py lines 51-106, same logic
in simple_app.py lines 347-387): reject when the book is not available;
reject when a transaction with this user_id, book_id and status 'issued'
exists; else insert an 'issued' transaction due `due_days` (default 14) days
out and decrement available_copies. -/
def issue_book (user_id : Nat) (due_days now : Int) (s : LibState) :
    Except LibError LibState :=
  if s.book.is_available = false then .error .Unavailable
  else if s.txns.any (issuedFor s.book_id user_id) then
    .error .AlreadyIssued
  else
    .ok { s with
      book := { s.book with available_copies := s.book.available_copies - 1 }
      txns := s.txns ++ [issuedTxn user_id due_days now s]
      next_id := s.next_id + 1 }

/-- The row update of return_book applied to the stored transactions:
the row with the given primary key gets return_date now and status
'returned'. -/
def returnUpd (transaction_id : Nat) (now : Int) (t : Transaction) : Transaction :=
  if t.id = transaction_id then
    { t with return_date := some now, status := TxStatus.returned }
  else t

/-- return_book POST branch against the store (routes/transactions.py lines
127-169): look the transaction up by primary key, reject one already
'returned', else record the return and increment available_copies.  The
fine insert of those lines touches neither the book nor the transactions,
so the store transition omits it (return_book above models it). -/
def return_book_tx (transaction_id : Nat) (now : Int) (s : LibState) :
    Except LibError LibState :=
  match s.txns.find? (fun t => t.id == transaction_id) with
  | none => .error .NotFound
  | some t =>
    if t.status = TxStatus.returned then .error .AlreadyReturned
    else .ok { s with
      book := { s.book with available_copies := s.book.available_copies + 1 }
      txns := s.txns.map (returnUpd transaction_id now) }

/-- One caller-visible operation of the lending lifecycle. -/
inductive Op where
  | issue (user_id : Nat) (due_days : Int)
  | ret (transaction_id : Nat)
  | edit (total_copies : Int)
  | sweep
deriving DecidableEq

/-- Run one operation at one instant; a flash-and-redirect error leaves the
store unchanged. -/
def step (s : LibState) (o : Op) (now : Int) : LibState :=
  match o with
  | .issue u dd =>
    match issue_book u dd now s with
    | .ok s' => s'
    | .error _ => s
  | .ret tid =>
    match return_book_tx tid now s with
    | .ok s' => s'
    | .error _ => s
  | .edit tc => { s with book := edit_book_copies s.book tc }
  | .sweep => { s with txns := sweepOverdue s.txns now }

/-- Run a sequence of timestamped operations. -/
def run (s : LibState) : List (Op × Int) → LibState
  | [] => s
  | (o, now) :: rest => run (step s o now) rest

/-- A transaction row not yet returned: one copy out on loan. -/
def notReturned (t : Transaction) : Bool :=
  decide (t.status ≠ TxStatus.returned)

/-- A transaction of the (user, book) pair whose status is 'issued' or
'overdue': an active loan in the sense of the spec's pair invariant. -/
def activeFor (book_id user_id : Nat) (t : Transaction) : Bool :=
  decide (t.user_id = user_id ∧ t.book_id = book_id ∧
    (t.status = TxStatus.issued ∨ t.status = TxStatus.overdue))

/-- Number of copies of the book currently out on loan: its transactions not
yet returned. -/
def outstanding (s : LibState) : Int :=
  ((s.txns.filter notReturned).length : Int)

/-- Number of 'issued' transactions the store holds for one (user, book)
pair. -/
def issuedCountFor (s : LibState) (user_id : Nat) : Nat :=
  (s.txns.filter (issuedFor s.book_id user_id)).length

/-- Number of transactions of the store for one (user, book) pair whose
status is 'issued' or 'overdue'. -/
def activeCountFor (s : LibState) (user_id : Nat) : Nat :=
  (s.txns.filter (activeFor s.book_id user_id)).length

/-- Internal consistency of one store state: available_copies is
nonnegative, available plus outstanding copies equals total, primary keys
are distinct, and the autoincrement counter is ahead of every key. -/
def goodState (s : LibState) : Prop :=
  0 ≤ s.book.available_copies ∧
  s.book.available_copies + outstanding s = s.book.total_copies ∧
  (s.txns.map Transaction.id).Nodup ∧
  ∀ t ∈ s.txns, t.id < s.next_id

/-- An edit is copy-safe when the submitted total is positive and at least
the number of copies out on loan; the other operations always are. -/
def safeOpB (s : LibState) : Op → Bool
  | .edit tc => decide (1 ≤ tc ∧ outstanding s ≤ tc)
  | _ => true

/-- A trace is copy-safe when every edit in it is copy-safe at the state it
runs against. -/
def safeTraceB : LibState → List (Op × Int) → Bool
  | _, [] => true
  | s, (o, now) :: rest => safeOpB s o && safeTraceB (step s o now) rest

/-- Decidable equality of handler results, for evaluating the embedded
handlers at concrete inputs. -/
instance exceptDecEq {ε α : Type} [DecidableEq ε] [DecidableEq α] :
    DecidableEq (Except ε α) := fun a b =>
  match a, b with
  | .error e, .error f =>
    if h : e = f then .isTrue (by rw [h]) else .isFalse (fun hh => by cases hh; exact h rfl)
  | .ok u, .ok v =>
    if h : u = v then .isTrue (by rw [h]) else .isFalse (fun hh => by cases hh; exact h rfl)
  | .error _, .ok _ => .isFalse (fun hh => by cases hh)
  | .ok _, .error _ => .isFalse (fun hh => by cases hh)

/-!
Helper lemmas: list counting under the row updates the handlers perform,
and elimination lemmas reading an operation's effect off a successful
result.
-/

theorem length_filter_map_le {α : Type} (f : α → α) (p : α → Bool) (l : List α)
    (hp : ∀ a ∈ l, p (f a) = true → p a = true) :
    ((l.map f).filter p).length ≤ (l.filter p).length := by
  induction l with
  | nil => simp
  | cons a l ih =>
    have ha := hp a (List.mem_cons_self a l)
    have hl : ∀ x ∈ l, p (f x) = true → p x = true := fun x hx => hp x (List.mem_cons_of_mem a hx)
    cases hfa : p (f a) with
    | true =>
      have hpa : p a = true := ha hfa
      simp only [List.map_cons, List.filter_cons, hfa, hpa, if_true, List.length_cons]
      exact Nat.succ_le_succ (ih hl)
    | false =>
      cases hpa : p a with
      | true =>
        simp only [List.map_cons, List.filter_cons, hfa, hpa, Bool.false_eq_true, if_false,
          if_true, List.length_cons]
        exact Nat.le_succ_of_le (ih hl)
      | false =>
        simp only [List.map_cons, List.filter_cons, hfa, hpa, Bool.false_eq_true, if_false]
        exact ih hl

theorem map_eq_self_of_fixed {α : Type} (f : α → α) (l : List α)
    (h : ∀ a ∈ l, f a = a) : l.map f = l := by
  induction l with
  | nil => rfl
  | cons a l ih =>
    simp only [List.map_cons, h a (List.mem_cons_self a l), List.cons.injEq, true_and]
    exact ih fun x hx => h x (List.mem_cons_of_mem a hx)

theorem sweepOverdue_ids (l : List Transaction) (now : Int) :
    (sweepOverdue l now).map Transaction.id = l.map Transaction.id := by
  induction l with
  | nil => rfl
  | cons a l ih =>
    simp only [sweepOverdue, List.map_cons] at ih ⊢
    split <;> simp [ih]

theorem notReturned_promoted (a : Transaction) :
    notReturned { a with status := TxStatus.overdue } = true := rfl

theorem sweepOverdue_cons (a : Transaction) (l : List Transaction) (now : Int) :
    sweepOverdue (a :: l) now =
      (if a.status = TxStatus.issued ∧ a.due_date < now then
        { a with status := TxStatus.overdue } else a) :: sweepOverdue l now := rfl

theorem sweepOverdue_notReturned_length (l : List Transaction) (now : Int) :
    ((sweepOverdue l now).filter notReturned).length =
      (l.filter notReturned).length := by
  induction l with
  | nil => rfl
  | cons a l ih =>
    rw [sweepOverdue_cons]
    by_cases h : a.status = TxStatus.issued ∧ a.due_date < now
    · rw [if_pos h, List.filter_cons, List.filter_cons, notReturned_promoted]
      have p2 : notReturned a = true := by
        unfold notReturned; rw [h.1]; rfl
      rw [p2]
      simp [ih]
    · rw [if_neg h, List.filter_cons, List.filter_cons]
      cases hp : notReturned a <;> simp [hp, ih]

theorem returnUpd_id (tid : Nat) (now : Int) (t : Transaction) :
    (returnUpd tid now t).id = t.id := by
  unfold returnUpd; split <;> rfl

theorem map_returnUpd_ids (tid : Nat) (now : Int) (l : List Transaction) :
    ((l.map (returnUpd tid now)).map Transaction.id) = l.map Transaction.id := by
  induction l with
  | nil => rfl
  | cons a l ih => simp only [List.map_cons, returnUpd_id, List.cons.injEq, true_and, ih]

theorem length_filter_map_returnUpd {l : List Transaction} {tid : Nat} (now : Int)
    (hnd : (l.map Transaction.id).Nodup)
    {t : Transaction} (hf : l.find? (fun u => u.id == tid) = some t)
    (ht : ¬ t.status = TxStatus.returned) :
    ((l.map (returnUpd tid now)).filter notReturned).length + 1 =
      (l.filter notReturned).length := by
  induction l with
  | nil => simp at hf
  | cons a l ih =>
    rw [List.map_cons] at hnd
    have hni : a.id ∉ l.map Transaction.id := (List.nodup_cons.mp hnd).1
    have hnd' : (l.map Transaction.id).Nodup := (List.nodup_cons.mp hnd).2
    rw [List.find?_cons] at hf
    cases hid : (a.id == tid) with
    | true =>
      rw [hid] at hf
      have hat : a = t := by injection hf
      subst hat
      have haid : a.id = tid := by simpa using hid
      have hfix : ∀ u ∈ l, returnUpd tid now u = u := by
        intro u hu
        have hne : ¬ u.id = tid := by
          intro hc
          exact hni (by rw [haid, ← hc]; exact List.mem_map_of_mem Transaction.id hu)
        unfold returnUpd
        rw [if_neg hne]
      have hupd : returnUpd tid now a =
          { a with return_date := some now, status := TxStatus.returned } := by
        unfold returnUpd; rw [if_pos haid]
      have hpa : notReturned a = true := by
        unfold notReturned; simpa using ht
      rw [List.map_cons, map_eq_self_of_fixed _ _ hfix, hupd, List.filter_cons,
        List.filter_cons, hpa]
      have hret : notReturned { a with return_date := some now, status := TxStatus.returned } = false := rfl
      rw [hret]
      simp
    | false =>
      rw [hid] at hf
      have haid : ¬ a.id = tid := by
        intro hc; rw [hc] at hid; simp at hid
      have hupd : returnUpd tid now a = a := by unfold returnUpd; rw [if_neg haid]
      rw [List.map_cons, hupd, List.filter_cons, List.filter_cons]
      by_cases hpa : notReturned a = true
      · rw [if_pos hpa, if_pos hpa]
        have hih := ih hnd' hf
        simp only [List.length_cons]
        omega
      · rw [if_neg hpa, if_neg hpa]
        exact ih hnd' hf

theorem issue_book_ok_elim {u : Nat} {dd now : Int} {s s' : LibState}
    (h : issue_book u dd now s = Except.ok s') :
    0 < s.book.available_copies ∧
    s.txns.any (issuedFor s.book_id u) = false ∧
    s' = { s with
      book := { s.book with available_copies := s.book.available_copies - 1 }
      txns := s.txns ++ [issuedTxn u dd now s]
      next_id := s.next_id + 1 } := by
  unfold issue_book at h
  split at h
  · exact absurd h (by simp)
  case isFalse h1 =>
    split at h
    · exact absurd h (by simp)
    case isFalse h2 =>
      have hav : s.book.is_available = true := by
        cases hb : s.book.is_available
        · exact absurd hb h1
        · rfl
      have hpos : 0 < s.book.available_copies := by
        have := hav
        unfold Book.is_available at this
        have := (Bool.and_eq_true _ _).mp this
        exact of_decide_eq_true this.1
      have hany : s.txns.any (issuedFor s.book_id u) = false := by
        cases hb : s.txns.any (issuedFor s.book_id u)
        · rfl
        · exact absurd hb h2
      rw [Except.ok.injEq] at h
      exact ⟨hpos, hany, h.symm⟩

theorem return_book_tx_ok_elim {tid : Nat} {now : Int} {s s' : LibState}
    (h : return_book_tx tid now s = Except.ok s') :
    ∃ t, s.txns.find? (fun u => u.id == tid) = some t ∧
      ¬ t.status = TxStatus.returned ∧
      s' = { s with
        book := { s.book with available_copies := s.book.available_copies + 1 }
        txns := s.txns.map (returnUpd tid now) } := by
  unfold return_book_tx at h
  cases hf : s.txns.find? (fun u => u.id == tid) with
  | none => rw [hf] at h; exact absurd h (by simp)
  | some t =>
    rw [hf] at h
    simp only at h
    split at h
    · exact absurd h (by simp)
    case isFalse hret =>
      rw [Except.ok.injEq] at h
      exact ⟨t, rfl, hret, h.symm⟩

theorem step_book_id (s : LibState) (o : Op) (now : Int) :
    (step s o now).book_id = s.book_id := by
  cases o with
  | issue u dd =>
    simp only [step]
    cases hE : issue_book u dd now s with
    | ok s' => rw [(issue_book_ok_elim hE).2.2]
    | error e => rfl
  | ret tid =>
    simp only [step]
    cases hE : return_book_tx tid now s with
    | ok s' =>
      obtain ⟨t, -, -, hs'⟩ := return_book_tx_ok_elim hE
      rw [hs']
    | error e => rfl
  | edit tc => rfl
  | sweep => rfl

theorem step_next_id_mono (s : LibState) (o : Op) (now : Int) :
    s.next_id ≤ (step s o now).next_id := by
  cases o with
  | issue u dd =>
    simp only [step]
    cases hE : issue_book u dd now s with
    | ok s' => rw [(issue_book_ok_elim hE).2.2]; exact Nat.le_succ _
    | error e => exact Nat.le_refl _
  | ret tid =>
    simp only [step]
    cases hE : return_book_tx tid now s with
    | ok s' =>
      obtain ⟨t, -, -, hs'⟩ := return_book_tx_ok_elim hE
      rw [hs']
    | error e => exact Nat.le_refl _
  | edit tc => exact Nat.le_refl _
  | sweep => exact Nat.le_refl _

theorem edit_book_copies_spec (b : Book) (tc : Int) :
    (edit_book_copies b tc).total_copies = (if tc ≠ 0 then tc else 1) ∧
    (edit_book_copies b tc).is_active = b.is_active ∧
    (edit_book_copies b tc).available_copies =
      (if b.total_copies < tc then b.available_copies + (tc - b.total_copies)
       else if tc < b.total_copies then
         max 0 (tc - (b.total_copies - b.available_copies))
       else b.available_copies) := by
  by_cases h1 : b.total_copies < tc
  · simp [edit_book_copies, h1]
  · by_cases h2 : tc < b.total_copies
    · simp [edit_book_copies, h1, h2]
    · simp [edit_book_copies, h1, h2]

theorem outstanding_append_issued (s : LibState) (u : Nat) (dd now : Int) :
    ((s.txns ++ [issuedTxn u dd now s]).filter notReturned).length =
      (s.txns.filter notReturned).length + 1 := by
  rw [List.filter_append]
  have h1 : notReturned (issuedTxn u dd now s) = true := rfl
  simp [List.filter_cons, h1]

theorem goodState_issue {u : Nat} {dd now : Int} {s s' : LibState}
    (hg : goodState s) (hE : issue_book u dd now s = Except.ok s') : goodState s' := by
  obtain ⟨hA, hSum, hNd, hBound⟩ := hg
  obtain ⟨hpos, hany, hs'⟩ := issue_book_ok_elim hE
  subst hs'
  refine ⟨?_, ?_, ?_, ?_⟩
  · show (0 : Int) ≤ s.book.available_copies - 1
    omega
  · show s.book.available_copies - 1 +
      (((s.txns ++ [issuedTxn u dd now s]).filter notReturned).length : Int) =
      s.book.total_copies
    rw [outstanding_append_issued]
    unfold outstanding at hSum
    omega
  · show ((s.txns ++ [issuedTxn u dd now s]).map Transaction.id).Nodup
    rw [List.map_append]
    refine List.nodup_append.mpr ⟨hNd, List.nodup_singleton _, ?_⟩
    intro a ha hmem
    obtain ⟨t, ht, hid⟩ := List.mem_map.mp ha
    have : a = s.next_id := by
      have h1 : (issuedTxn u dd now s).id = s.next_id := rfl
      simpa [h1] using hmem
    subst this
    exact absurd (hid ▸ hBound t ht) (by omega)
  · intro t ht
    show t.id < s.next_id + 1
    rcases List.mem_append.mp ht with h | h
    · exact Nat.lt_succ_of_lt (hBound t h)
    · have : t = issuedTxn u dd now s := by simpa using h
      subst this
      exact Nat.lt_succ_self _

theorem goodState_ret {tid : Nat} {now : Int} {s s' : LibState}
    (hg : goodState s) (hE : return_book_tx tid now s = Except.ok s') : goodState s' := by
  obtain ⟨hA, hSum, hNd, hBound⟩ := hg
  obtain ⟨t, hf, ht, hs'⟩ := return_book_tx_ok_elim hE
  subst hs'
  have hcount := length_filter_map_returnUpd now hNd hf ht
  refine ⟨?_, ?_, ?_, ?_⟩
  · show (0 : Int) ≤ s.book.available_copies + 1
    omega
  · show s.book.available_copies + 1 +
      (((s.txns.map (returnUpd tid now)).filter notReturned).length : Int) =
      s.book.total_copies
    unfold outstanding at hSum
    omega
  · show ((s.txns.map (returnUpd tid now)).map Transaction.id).Nodup
    rw [map_returnUpd_ids]
    exact hNd
  · intro t' ht'
    show t'.id < s.next_id
    obtain ⟨a, ha, hfa⟩ := List.mem_map.mp ht'
    have : t'.id = a.id := by rw [← hfa, returnUpd_id]
    rw [this]
    exact hBound a ha

theorem goodState_sweep {now : Int} {s : LibState}
    (hg : goodState s) : goodState { s with txns := sweepOverdue s.txns now } := by
  obtain ⟨hA, hSum, hNd, hBound⟩ := hg
  refine ⟨hA, ?_, ?_, ?_⟩
  · show s.book.available_copies +
      (((sweepOverdue s.txns now).filter notReturned).length : Int) = s.book.total_copies
    rw [sweepOverdue_notReturned_length]
    exact hSum
  · show ((sweepOverdue s.txns now).map Transaction.id).Nodup
    rw [sweepOverdue_ids]
    exact hNd
  · intro t' ht'
    show t'.id < s.next_id
    unfold sweepOverdue at ht'
    obtain ⟨a, ha, hfa⟩ := List.mem_map.mp ht'
    have hid : t'.id = a.id := by
      rw [← hfa]
      split <;> rfl
    rw [hid]
    exact hBound a ha

theorem goodState_edit {tc : Int} {s : LibState}
    (hg : goodState s) (h1 : 1 ≤ tc) (h2 : outstanding s ≤ tc) :
    goodState { s with book := edit_book_copies s.book tc } := by
  obtain ⟨hA, hSum, hNd, hBound⟩ := hg
  obtain ⟨hT, hAct, hAv⟩ := edit_book_copies_spec s.book tc
  have hTne : tc ≠ 0 := by omega
  rw [if_pos hTne] at hT
  refine ⟨?_, ?_, hNd, hBound⟩
  · show (0 : Int) ≤ (edit_book_copies s.book tc).available_copies
    rw [hAv]
    by_cases hlt : s.book.total_copies < tc
    · rw [if_pos hlt]; omega
    · rw [if_neg hlt]
      by_cases hgt : tc < s.book.total_copies
      · rw [if_pos hgt]; exact le_max_left 0 _
      · rw [if_neg hgt]; exact hA
  · show (edit_book_copies s.book tc).available_copies +
      outstanding { s with book := edit_book_copies s.book tc } =
      (edit_book_copies s.book tc).total_copies
    have hOut : outstanding { s with book := edit_book_copies s.book tc } = outstanding s := rfl
    rw [hOut, hAv, hT]
    by_cases hlt : s.book.total_copies < tc
    · rw [if_pos hlt]; omega
    · rw [if_neg hlt]
      by_cases hgt : tc < s.book.total_copies
      · rw [if_pos hgt]
        have hOeq : s.book.total_copies - s.book.available_copies = outstanding s := by omega
        rw [hOeq, max_eq_right (by omega : (0 : Int) ≤ tc - outstanding s)]
        omega
      · rw [if_neg hgt]; omega

theorem step_good {s : LibState} {o : Op} {now : Int}
    (hg : goodState s) (hs : safeOpB s o = true) : goodState (step s o now) := by
  cases o with
  | issue u dd =>
    simp only [step]
    cases hE : issue_book u dd now s with
    | ok s' => exact goodState_issue hg hE
    | error e => exact hg
  | ret tid =>
    simp only [step]
    cases hE : return_book_tx tid now s with
    | ok s' => exact goodState_ret hg hE
    | error e => exact hg
  | edit tc =>
    have hs' := of_decide_eq_true hs
    exact goodState_edit hg hs'.1 hs'.2
  | sweep => exact goodState_sweep hg

theorem run_good {ops : List (Op × Int)} : ∀ {s : LibState},
    goodState s → safeTraceB s ops = true → goodState (run s ops) := by
  induction ops with
  | nil => intro s hg _; exact hg
  | cons p rest ih =>
    intro s hg hs
    obtain ⟨o, now⟩ := p
    have hsplit := (Bool.and_eq_true _ _).mp hs
    exact ih (step_good hg hsplit.1) hsplit.2

theorem step_avail_nonneg {s : LibState} (o : Op) (now : Int)
    (h : 0 ≤ s.book.available_copies) : 0 ≤ (step s o now).book.available_copies := by
  cases o with
  | issue u dd =>
    simp only [step]
    cases hE : issue_book u dd now s with
    | ok s' =>
      obtain ⟨hpos, -, hs'⟩ := issue_book_ok_elim hE
      rw [hs']
      show (0 : Int) ≤ s.book.available_copies - 1
      omega
    | error e => exact h
  | ret tid =>
    simp only [step]
    cases hE : return_book_tx tid now s with
    | ok s' =>
      obtain ⟨t, -, -, hs'⟩ := return_book_tx_ok_elim hE
      rw [hs']
      show (0 : Int) ≤ s.book.available_copies + 1
      omega
    | error e => exact h
  | edit tc =>
    show (0 : Int) ≤ (edit_book_copies s.book tc).available_copies
    obtain ⟨-, -, hAv⟩ := edit_book_copies_spec s.book tc
    rw [hAv]
    by_cases hlt : s.book.total_copies < tc
    · rw [if_pos hlt]; omega
    · rw [if_neg hlt]
      by_cases hgt : tc < s.book.total_copies
      · rw [if_pos hgt]; exact le_max_left 0 _
      · rw [if_neg hgt]; exact h
  | sweep => exact h

theorem run_avail_nonneg {ops : List (Op × Int)} : ∀ {s : LibState},
    0 ≤ s.book.available_copies → 0 ≤ (run s ops).book.available_copies := by
  induction ops with
  | nil => intro s h; exact h
  | cons p rest ih =>
    intro s h
    obtain ⟨o, now⟩ := p
    exact ih (step_avail_nonneg o now h)

theorem issuedFor_returnUpd {bid u tid : Nat} {now : Int} {t : Transaction}
    (h : issuedFor bid u (returnUpd tid now t) = true) : issuedFor bid u t = true := by
  unfold returnUpd at h
  split at h
  · have := of_decide_eq_true h
    exact absurd this.2.2 (by simp)
  · exact h

theorem issuedFor_sweep {bid u : Nat} {now : Int} {t : Transaction}
    (h : issuedFor bid u
      (if t.status = TxStatus.issued ∧ t.due_date < now then
        { t with status := TxStatus.overdue } else t) = true) :
    issuedFor bid u t = true := by
  split at h
  · have := of_decide_eq_true h
    exact absurd this.2.2 (by simp)
  · exact h

theorem step_issuedCount {s : LibState} {o : Op} {now : Int} {u : Nat}
    (h : issuedCountFor s u ≤ 1) : issuedCountFor (step s o now) u ≤ 1 := by
  cases o with
  | issue u' dd =>
    simp only [step]
    cases hE : issue_book u' dd now s with
    | ok s' =>
      obtain ⟨-, hany, hs'⟩ := issue_book_ok_elim hE
      subst hs'
      show ((s.txns ++ [issuedTxn u' dd now s]).filter (issuedFor s.book_id u)).length ≤ 1
      rw [List.filter_append]
      by_cases huu : u = u'
      · subst huu
        have hnil : s.txns.filter (issuedFor s.book_id u) = [] := by
          rw [List.filter_eq_nil_iff]
          intro a ha hpa
          have := List.any_eq_false.mp hany a ha
          exact this hpa
        have hone : issuedFor s.book_id u (issuedTxn u dd now s) = true := by
          unfold issuedFor issuedTxn
          simp
        rw [hnil]
        simp [List.filter_cons, hone]
      · have hzero : issuedFor s.book_id u (issuedTxn u' dd now s) = false := by
          unfold issuedFor issuedTxn
          simp
          intro hc
          exact absurd hc.symm huu
        simp only [List.filter_cons, hzero, Bool.false_eq_true, if_false, List.filter_nil,
          List.append_nil]
        exact h
    | error e => exact h
  | ret tid =>
    simp only [step]
    cases hE : return_book_tx tid now s with
    | ok s' =>
      obtain ⟨t, -, -, hs'⟩ := return_book_tx_ok_elim hE
      subst hs'
      show ((s.txns.map (returnUpd tid now)).filter (issuedFor s.book_id u)).length ≤ 1
      exact le_trans
        (length_filter_map_le _ _ _ fun a _ hpa => issuedFor_returnUpd hpa) h
    | error e => exact h
  | edit tc => exact h
  | sweep =>
    show ((sweepOverdue s.txns now).filter (issuedFor s.book_id u)).length ≤ 1
    unfold sweepOverdue
    exact le_trans
      (length_filter_map_le _ _ _ fun a _ hpa => issuedFor_sweep hpa) h

theorem run_issuedCount {ops : List (Op × Int)} : ∀ {s : LibState} {u : Nat},
    issuedCountFor s u ≤ 1 → issuedCountFor (run s ops) u ≤ 1 := by
  induction ops with
  | nil => intro s u h; exact h
  | cons p rest ih =>
    intro s u h
    obtain ⟨o, now⟩ := p
    exact ih (step_issuedCount h)

theorem sweepOverdue_get (l : List Transaction) (now : Int) (i : Nat)
    (h : i < l.length) (h' : i < (sweepOverdue l now).length) :
    (sweepOverdue l now).get ⟨i, h'⟩ =
      (if (l.get ⟨i, h⟩).status = TxStatus.issued ∧ (l.get ⟨i, h⟩).due_date < now then
        { l.get ⟨i, h⟩ with status := TxStatus.overdue }
      else l.get ⟨i, h⟩) := by
  induction l generalizing i with
  | nil => exact absurd h (by simp)
  | cons a l ih =>
    cases i with
    | zero => rfl
    | succ n =>
      have hn : n < l.length := by simpa using h
      have hn' : n < (sweepOverdue l now).length := by
        rw [show (sweepOverdue l now).length = l.length from List.length_map l _]
        exact hn
      exact ih n hn hn'

/-- Claim C1, counterexample: starting from add_book with 2 copies, issue the
book to two users, shrink total_copies to 1 (the clamp keeps
available_copies at 0), then return both loans: available_copies ends at 2
with total_copies 1, violating `availableCopies <= totalCopies`. -/
theorem c1_counterexample :
    ¬ ((run (initState 1 2)
        [(Op.issue 1 14, 0), (Op.issue 2 14, 0), (Op.edit 1, 0),
         (Op.ret 0, 3600), (Op.ret 1, 3600)]).book.available_copies ≤
      (run (initState 1 2)
        [(Op.issue 1 14, 0), (Op.issue 2 14, 0), (Op.edit 1, 0),
         (Op.ret 0, 3600), (Op.ret 1, 3600)]).book.total_copies) := by decide

/-- Claim C1, amended: after any operation sequence from add_book,
`0 <= availableCopies` holds; and `availableCopies <= totalCopies` holds
provided every edit_book keeps the submitted total_copies positive and at
least the number of copies then out on loan (without that proviso the
counterexample applies). -/
theorem c1_available_copies_bounds (book_id : Nat) (tc : Int) (ops : List (Op × Int))
    (h0 : 0 ≤ tc) :
    0 ≤ (run (initState book_id tc) ops).book.available_copies ∧
    (safeTraceB (initState book_id tc) ops = true →
      (run (initState book_id tc) ops).book.available_copies ≤
        (run (initState book_id tc) ops).book.total_copies) := by
  have hinit_avail : 0 ≤ (initState book_id tc).book.available_copies := by
    show (0 : Int) ≤ (if tc ≠ 0 then tc else 1)
    split <;> omega
  constructor
  · exact run_avail_nonneg hinit_avail
  · intro hsafe
    have hg0 : goodState (initState book_id tc) := by
      refine ⟨hinit_avail, ?_, by simp [initState], by simp [initState]⟩
      show (if tc ≠ 0 then tc else 1) + outstanding (initState book_id tc) =
        (if tc ≠ 0 then tc else 1)
      rw [show outstanding (initState book_id tc) = 0 from rfl, add_zero]
    have hg := run_good hg0 hsafe
    obtain ⟨hA, hSum, -, -⟩ := hg
    have hOut : 0 ≤ outstanding (run (initState book_id tc) ops) := by
      unfold outstanding
      exact Int.natCast_nonneg _
    omega

/-- Claim C1, witness: a two-copy book issued once and returned once stays
within bounds. -/
theorem c1_witness :
    (0 : Int) ≤ 2 ∧
    (0 ≤ (run (initState 1 2) [(Op.issue 5 14, 0), (Op.ret 0, 50)]).book.available_copies ∧
      (safeTraceB (initState 1 2) [(Op.issue 5 14, 0), (Op.ret 0, 50)] = true →
        (run (initState 1 2) [(Op.issue 5 14, 0), (Op.ret 0, 50)]).book.available_copies ≤
          (run (initState 1 2) [(Op.issue 5 14, 0), (Op.ret 0, 50)]).book.total_copies)) :=
  ⟨by decide, c1_available_copies_bounds 1 2 [(Op.issue 5 14, 0), (Op.ret 0, 50)] (by decide)⟩

/-- Claim C2, counterexample: issue to user 7, let the sweep promote the
loan to 'overdue', then issue the same book to user 7 again: the
existing-loan check filters on status 'issued' only, so the second issue
succeeds and the pair holds two active (issued/overdue) transactions. -/
theorem c2_counterexample :
    ¬ (activeCountFor (run (initState 1 2)
        [(Op.issue 7 14, 0), (Op.sweep, 14 * 86400 + 1), (Op.issue 7 14, 14 * 86400 + 1)]) 7 ≤ 1) := by
  decide

/-- Claim C2, amended: after any operation sequence from add_book, each
(user, book) pair holds at most one transaction with status 'issued';
transactions promoted to 'overdue' stop blocking re-issue, so the
issued-or-overdue version of the invariant fails (see the
counterexample). -/
theorem c2_at_most_one_issued (book_id : Nat) (tc : Int) (ops : List (Op × Int))
    (u : Nat) :
    issuedCountFor (run (initState book_id tc) ops) u ≤ 1 := by
  exact run_issuedCount (Nat.zero_le 1)

/-- Claim C5: when edit_book changes total_copies to a positive value, an
increase by d raises available_copies by d, and a decrease clamps
available_copies to `max(0, newTotal - issuedCopies)` with
`issuedCopies = oldTotal - oldAvailable`. -/
theorem c5_edit_book_copy_rule (b : Book) (tc d : Int) (hpos : 0 < tc) :
    (edit_book_copies b tc).total_copies = tc ∧
    (tc = b.total_copies + d → 0 < d →
      (edit_book_copies b tc).available_copies = b.available_copies + d) ∧
    (tc < b.total_copies →
      (edit_book_copies b tc).available_copies =
        max 0 (tc - (b.total_copies - b.available_copies))) := by
  obtain ⟨hT, -, hAv⟩ := edit_book_copies_spec b tc
  refine ⟨by rw [hT, if_pos (by omega : tc ≠ 0)], ?_, ?_⟩
  · intro hd hdpos
    rw [hAv, if_pos (by omega : b.total_copies < tc)]
    omega
  · intro hlt
    rw [hAv, if_neg (by omega : ¬ b.total_copies < tc), if_pos hlt]

/-- Claim C5, witness: the spec scenario, total_copies 1 -> 3 with one copy
out (available 0) yields available_copies 2. -/
theorem c5_witness :
    (0 : Int) < 3 ∧
    (edit_book_copies ⟨1, 0, true⟩ 3).available_copies = 0 + 2 :=
  ⟨by decide, (c5_edit_book_copy_rule ⟨1, 0, true⟩ 3 2 (by decide)).2.1 (by decide) (by decide)⟩

/-- Claim C7: the overdue sweep is idempotent, and it is a pure status
promotion: it keeps the list length, rewrites status to 'overdue' exactly
for rows with status 'issued' and due_date before now, and leaves every
other column of every row unchanged. -/
theorem c7_sweep_idempotent_promotion (l : List Transaction) (now : Int) :
    sweepOverdue (sweepOverdue l now) now = sweepOverdue l now ∧
    (sweepOverdue l now).length = l.length ∧
    (∀ i (h : i < l.length) (h' : i < (sweepOverdue l now).length),
      ((sweepOverdue l now).get ⟨i, h'⟩).id = (l.get ⟨i, h⟩).id ∧
      ((sweepOverdue l now).get ⟨i, h'⟩).user_id = (l.get ⟨i, h⟩).user_id ∧
      ((sweepOverdue l now).get ⟨i, h'⟩).book_id = (l.get ⟨i, h⟩).book_id ∧
      ((sweepOverdue l now).get ⟨i, h'⟩).issue_date = (l.get ⟨i, h⟩).issue_date ∧
      ((sweepOverdue l now).get ⟨i, h'⟩).due_date = (l.get ⟨i, h⟩).due_date ∧
      ((sweepOverdue l now).get ⟨i, h'⟩).return_date = (l.get ⟨i, h⟩).return_date ∧
      ((sweepOverdue l now).get ⟨i, h'⟩).status =
        (if (l.get ⟨i, h⟩).status = TxStatus.issued ∧ (l.get ⟨i, h⟩).due_date < now
         then TxStatus.overdue else (l.get ⟨i, h⟩).status)) := by
  refine ⟨?_, List.length_map l _, ?_⟩
  · induction l with
    | nil => rfl
    | cons a l ih =>
      rw [sweepOverdue_cons, sweepOverdue_cons, ih]
      congr 1
      by_cases h : a.status = TxStatus.issued ∧ a.due_date < now
      · rw [if_pos h, if_neg (by simp)]
      · rw [if_neg h, if_neg h]
  · intro i h h'
    rw [sweepOverdue_get l now i h h']
    by_cases hc : (l.get ⟨i, h⟩).status = TxStatus.issued ∧ (l.get ⟨i, h⟩).due_date < now
    · rw [if_pos hc, if_pos hc]
      exact ⟨rfl, rfl, rfl, rfl, rfl, rfl, rfl⟩
    · rw [if_neg hc, if_neg hc]
      exact ⟨rfl, rfl, rfl, rfl, rfl, rfl, rfl⟩

/-- Claim C8, counterexample: a book whose only transaction is 'overdue' is
deactivated without complaint, where the claim demands a Conflict. -/
theorem c8_counterexample :
    delete_book 1 ⟨2, 1, true⟩ [⟨0, 7, 1, 0, 0, none, TxStatus.overdue⟩] ≠
      Except.error LibError.Conflict ∧
    delete_book 1 ⟨2, 1, true⟩ [⟨0, 7, 1, 0, 0, none, TxStatus.overdue⟩] =
      Except.ok ⟨2, 1, false⟩ := by decide

/-- Claim C8, amended: delete_book fails with Conflict exactly when some
transaction of the book has status 'issued' ('overdue' does not block), and
otherwise soft-deletes: it returns the book with is_active false and every
other column unchanged. -/
theorem c8_delete_book_issued_only (book_id : Nat) (b : Book) (txns : List Transaction) :
    (delete_book book_id b txns = .error .Conflict ↔
      ∃ t ∈ txns, t.book_id = book_id ∧ t.status = TxStatus.issued) ∧
    ((∀ t ∈ txns, ¬ (t.book_id = book_id ∧ t.status = TxStatus.issued)) →
      delete_book book_id b txns = .ok { b with is_active := false }) := by
  have key : (0 < (txns.filter fun t =>
      decide (t.book_id = book_id ∧ t.status = TxStatus.issued)).length) ↔
      ∃ t ∈ txns, t.book_id = book_id ∧ t.status = TxStatus.issued := by
    rw [← List.countP_eq_length_filter, List.countP_pos_iff]
    constructor
    · rintro ⟨t, ht, hp⟩
      exact ⟨t, ht, of_decide_eq_true hp⟩
    · rintro ⟨t, ht, hp⟩
      exact ⟨t, ht, decide_eq_true hp⟩
  constructor
  · constructor
    · intro h
      rw [← key]
      by_contra hn
      simp only [delete_book, if_neg hn] at h
      exact absurd h (by simp)
    · intro hex
      simp only [delete_book, if_pos (key.mpr hex)]
  · intro hall
    have hn : ¬ (0 < (txns.filter fun t =>
        decide (t.book_id = book_id ∧ t.status = TxStatus.issued)).length) := by
      intro hpos
      obtain ⟨t, ht, hp⟩ := key.mp hpos
      exact hall t ht hp
    simp only [delete_book, if_neg hn]

theorem find?_append_fresh {l : List Transaction} {tid : Nat}
    (hs : ∀ t ∈ l, t.id ≠ tid) {x : Transaction} (hx : x.id = tid) :
    (l ++ [x]).find? (fun t => t.id == tid) = some x := by
  induction l with
  | nil => simp [List.find?, hx]
  | cons a l ih =>
    have ha : (a.id == tid) = false := by
      simp [hs a (List.mem_cons_self a l)]
    rw [List.cons_append, List.find?_cons, ha]
    exact ih fun t htl => hs t (List.mem_cons_of_mem a htl)

/-- Claim C3: in the routes return handler the fine branch is dead code.
The handler assigns return_date before calling `is_overdue()`, and
`is_overdue()` returns False as soon as return_date is set, so a
transaction five whole days past due is returned with no Fine row created,
while `days_overdue` computed before the call is 5 and the handler's own
flash message promises a fine of 5. -/
theorem c3_return_book_never_fines :
    Transaction.is_overdue ⟨0, 1, 1, 0, 0, none, TxStatus.issued⟩ (5 * 86400) = true ∧
    Transaction.days_overdue ⟨0, 1, 1, 0, 0, none, TxStatus.issued⟩ (5 * 86400) = 5 ∧
    return_book 1 true ⟨0, 1, 1, 0, 0, none, TxStatus.issued⟩ ⟨1, 0, true⟩ (5 * 86400) =
      Except.ok ⟨⟨0, 1, 1, 0, 0, some (5 * 86400), TxStatus.returned⟩, ⟨1, 1, true⟩, none⟩ :=
  ⟨by decide, by decide, by decide⟩

/-- Claim C4, counterexample: paying any amount against a fine of 5.0 with
nothing yet paid marks it 'paid' outright with paid_amount still 0.0, so
the recompute rule of the claim (paid only once paid_amount reaches
total_amount, partially_paid in between) does not hold. -/
theorem c4_counterexample :
    pay_fine ⟨1, 1, 1, 5, 5, 0, FineStatus.unpaid, none⟩ 3 =
      Except.ok ⟨1, 1, 1, 5, 5, 0, FineStatus.paid, some 3⟩ ∧
    ¬ ((5 : Rat) ≤ 0) := by
  constructor
  · rfl
  · norm_num

/-- Claim C4, amended: pay_fine reads no payment amount.  It fails with
AlreadyPaid exactly when the fine's status is already 'paid'; otherwise it
sets status 'paid' and paid_date now while leaving paid_amount,
total_amount and every other column unchanged, and its result status is
never 'partially_paid'. -/
theorem c4_pay_fine_marks_paid (f : Fine) (now : Int) :
    (f.status = FineStatus.paid → pay_fine f now = .error .AlreadyPaid) ∧
    (¬ f.status = FineStatus.paid →
      ∃ f', pay_fine f now = .ok f' ∧ f'.status = FineStatus.paid ∧
        f'.paid_date = some now ∧ f'.paid_amount = f.paid_amount ∧
        f'.total_amount = f.total_amount ∧ f'.days_late = f.days_late ∧
        f'.per_day_rate = f.per_day_rate ∧ f'.amount = f.amount ∧
        f'.transaction_id = f.transaction_id) ∧
    (∀ g, pay_fine f now = .ok g → ¬ g.status = FineStatus.partially_paid) := by
  refine ⟨?_, ?_, ?_⟩
  · intro h
    unfold pay_fine
    rw [if_pos h]
  · intro h
    unfold pay_fine
    rw [if_neg h]
    exact ⟨_, rfl, rfl, rfl, rfl, rfl, rfl, rfl, rfl, rfl⟩
  · intro g hg
    unfold pay_fine at hg
    split at hg
    · exact absurd hg (by simp)
    · rw [Except.ok.injEq] at hg
      rw [← hg]
      simp

/-- Claim C6, counterexample: the routes return handler holds no ownership
check at all: a logged-in non-admin caller (id 99) returns a transaction
belonging to user 1 and the handler succeeds, where the claim demands a
Forbidden failure with no state change. -/
theorem c6_counterexample :
    return_book 99 false ⟨0, 1, 1, 0, 100, none, TxStatus.issued⟩ ⟨1, 0, true⟩ 5 =
      Except.ok ⟨⟨0, 1, 1, 0, 100, some 5, TxStatus.returned⟩, ⟨1, 1, true⟩, none⟩ := by
  decide

/-- Claim C6, amended: the simple_app return handler and the routes renew
handler both reject a caller who is neither admin nor the transaction's
owner with a Forbidden error; the routes return handler performs no such
check (see the counterexample). -/
theorem c6_owner_check (uid : Nat) (adm : Bool) (t : Transaction) (b : Book)
    (now ad : Int)
    (hs : ¬ t.status = TxStatus.returned)
    (hadm : adm = false) (hown : ¬ t.user_id = uid) :
    return_book_simple uid adm t b now = .error .Forbidden ∧
    renew_book uid adm t ad = .error .Forbidden := by
  constructor
  · unfold return_book_simple
    rw [if_neg hs, if_pos ⟨hadm, hown⟩]
  · unfold renew_book
    rw [if_neg hs, if_pos ⟨hadm, hown⟩]

/-- Claim C6, witness: a non-admin caller (id 9) against a loan of user 1. -/
theorem c6_witness :
    ¬ (⟨0, 1, 1, 0, 100, none, TxStatus.issued⟩ : Transaction).status = TxStatus.returned ∧
    ¬ (⟨0, 1, 1, 0, 100, none, TxStatus.issued⟩ : Transaction).user_id = 9 ∧
    (return_book_simple 9 false ⟨0, 1, 1, 0, 100, none, TxStatus.issued⟩ ⟨1, 0, true⟩ 5 =
        .error .Forbidden ∧
      renew_book 9 false ⟨0, 1, 1, 0, 100, none, TxStatus.issued⟩ 7 = .error .Forbidden) :=
  ⟨by decide, by decide,
    c6_owner_check 9 false ⟨0, 1, 1, 0, 100, none, TxStatus.issued⟩ ⟨1, 0, true⟩ 5 7
      (by decide) rfl (by decide)⟩

/-- Claim C9: issuing a book and then returning the transaction that the
issue created restores available_copies to its pre-issue value, with no
other operation in between; the freshness hypothesis says the autoincrement
key is new, so the return acts on the created row. -/
theorem c9_issue_return_round_trip (u : Nat) (dd now now' : Int) (s s' s'' : LibState)
    (hfresh : ∀ t ∈ s.txns, t.id ≠ s.next_id)
    (h1 : issue_book u dd now s = Except.ok s')
    (h2 : return_book_tx s.next_id now' s' = Except.ok s'') :
    s''.book.available_copies = s.book.available_copies ∧
    s'.txns.find? (fun t => t.id == s.next_id) = some (issuedTxn u dd now s) := by
  obtain ⟨-, -, hs'⟩ := issue_book_ok_elim h1
  obtain ⟨t, hf, ht, hs''⟩ := return_book_tx_ok_elim h2
  constructor
  · rw [hs'']
    show s'.book.available_copies + 1 = s.book.available_copies
    rw [hs']
    show s.book.available_copies - 1 + 1 = s.book.available_copies
    omega
  · rw [hs']
    show (s.txns ++ [issuedTxn u dd now s]).find? (fun t => t.id == s.next_id) = _
    exact find?_append_fresh hfresh rfl

/-- Claim C9, witness: a one-copy book, issue to user 3 at time 0, return at
time 5. -/
theorem c9_witness :
    (∀ t ∈ (initState 1 1).txns, t.id ≠ (initState 1 1).next_id) ∧
    issue_book 3 14 0 (initState 1 1) =
      Except.ok ⟨1, ⟨1, 0, true⟩, [⟨0, 3, 1, 0, 1209600, none, TxStatus.issued⟩], 1⟩ ∧
    return_book_tx 0 5 ⟨1, ⟨1, 0, true⟩, [⟨0, 3, 1, 0, 1209600, none, TxStatus.issued⟩], 1⟩ =
      Except.ok ⟨1, ⟨1, 1, true⟩, [⟨0, 3, 1, 0, 1209600, some 5, TxStatus.returned⟩], 1⟩ ∧
    (⟨1, ⟨1, 1, true⟩, [⟨0, 3, 1, 0, 1209600, some 5, TxStatus.returned⟩], 1⟩ :
        LibState).book.available_copies = (initState 1 1).book.available_copies :=
  ⟨by decide, by decide, by decide,
    (c9_issue_return_round_trip 3 14 0 5 (initState 1 1)
      ⟨1, ⟨1, 0, true⟩, [⟨0, 3, 1, 0, 1209600, none, TxStatus.issued⟩], 1⟩
      ⟨1, ⟨1, 1, true⟩, [⟨0, 3, 1, 0, 1209600, some 5, TxStatus.returned⟩], 1⟩
      (by decide) (by decide) (by decide)).1⟩

/-- Claim C10, counterexample: against the routes return handler the claim
fails outright: a transaction returned one hour past due yields no Fine row
at all (the fine branch is dead code), rather than the zero-amount fine the
claim describes. -/
theorem c10_counterexample :
    return_book 1 true ⟨0, 1, 1, 0, 0, none, TxStatus.issued⟩ ⟨1, 0, true⟩ 3600 =
      Except.ok ⟨⟨0, 1, 1, 0, 0, some 3600, TxStatus.returned⟩, ⟨1, 1, true⟩, none⟩ := by
  decide

/-- Claim C10, amended: in the simple_app return handler the claim holds: a
return strictly past due but less than one whole day late inserts a Fine
with days_late 0, total_amount 0.0 and status 'unpaid', whose paid_amount
(0.0) already reaches total_amount; and pay_fine never produces status
'partially_paid', so such a fine can never become partially paid. -/
theorem c10_zero_fine (uid : Nat) (adm : Bool) (t : Transaction) (b : Book) (now : Int)
    (hs : ¬ t.status = TxStatus.returned)
    (hadm : adm = true)
    (hlate : t.due_date < now)
    (hlt : now - t.due_date < secondsPerDay) :
    (∃ r f, return_book_simple uid adm t b now = .ok r ∧ r.fine = some f ∧
      f.days_late = 0 ∧ f.total_amount = 0 ∧ f.status = FineStatus.unpaid ∧
      f.paid_amount = 0 ∧ f.is_fully_paid = true) ∧
    (∀ g now2 g', pay_fine g now2 = .ok g' → ¬ g'.status = FineStatus.partially_paid) := by
  have hsec : secondsPerDay.toNat = 86400 := rfl
  have hD : (now - t.due_date).toNat / secondsPerDay.toNat = 0 := by
    apply Nat.div_eq_of_lt
    rw [hsec]
    unfold secondsPerDay at hlt
    omega
  constructor
  · refine ⟨⟨{ t with return_date := some now, status := TxStatus.returned },
      { b with available_copies := b.available_copies + 1 },
      some ⟨t.id, 1, 1, (now - t.due_date).toNat / secondsPerDay.toNat,
        (((now - t.due_date).toNat / secondsPerDay.toNat : Nat) : Rat) * 1, 0,
        FineStatus.unpaid, none⟩⟩,
      ⟨t.id, 1, 1, (now - t.due_date).toNat / secondsPerDay.toNat,
        (((now - t.due_date).toNat / secondsPerDay.toNat : Nat) : Rat) * 1, 0,
        FineStatus.unpaid, none⟩, ?_, rfl, hD, ?_, rfl, rfl, ?_⟩
    · unfold return_book_simple
      rw [if_neg hs, if_neg (by rintro ⟨ha, -⟩; rw [hadm] at ha; cases ha), if_pos hlate]
    · show ((((now - t.due_date).toNat / secondsPerDay.toNat : Nat) : Rat) * 1 = 0)
      rw [hD]
      norm_num
    · unfold Fine.is_fully_paid
      apply decide_eq_true
      show ((((now - t.due_date).toNat / secondsPerDay.toNat : Nat) : Rat) * 1 ≤ 0)
      rw [hD]
      norm_num
  · intro g now2 g' hg
    unfold pay_fine at hg
    split at hg
    · exact absurd hg (by simp)
    · rw [Except.ok.injEq] at hg
      rw [← hg]
      simp

/-- Claim C10, witness: due at time 0, returned at time 3600 (one hour
late), by an admin. -/
theorem c10_witness :
    ¬ (⟨0, 1, 1, 0, 0, none, TxStatus.issued⟩ : Transaction).status = TxStatus.returned ∧
    (0 : Int) < 3600 ∧ (3600 : Int) - 0 < secondsPerDay ∧
    ((∃ r f, return_book_simple 9 true ⟨0, 1, 1, 0, 0, none, TxStatus.issued⟩ ⟨1, 0, true⟩ 3600 =
        .ok r ∧ r.fine = some f ∧
        f.days_late = 0 ∧ f.total_amount = 0 ∧ f.status = FineStatus.unpaid ∧
        f.paid_amount = 0 ∧ f.is_fully_paid = true) ∧
      (∀ g now2 g', pay_fine g now2 = .ok g' → ¬ g'.status = FineStatus.partially_paid)) :=
  ⟨by decide, by decide, by decide,
    c10_zero_fine 9 true ⟨0, 1, 1, 0, 0, none, TxStatus.issued⟩ ⟨1, 0, true⟩ 3600
      (by decide) rfl (by decide) (by decide)⟩
